import Mathlib

/-!
# NextUp-Core: verification of the Task Prioritization & Dynamic Reward Engine

Shallow embedding of the weight function (`src/weighting.rs`), the bounty
computation (`src/finance.rs`) and the relevant storage-layer helpers
(`src/db.rs`).

Modelling conventions:
* `chrono::DateTime<Utc>` timestamps are embedded as `Int` Unix-epoch seconds;
  the implicit `Utc::now()` argument of the Rust functions becomes an explicit
  `now : Int` parameter.
* `f32`/`f64` arithmetic is idealised as exact rational arithmetic over `ℚ`
  (same formulas, same decimal constants).  Where the Rust code can produce a
  non-finite `f64` (division by zero), values are wrapped in `FloatVal`, which
  has explicit `posInf`/`nan` constructors.
* A Rust `panic!` / `Option::unwrap` on `None` is embedded as an
  `Option`-valued function returning `none`.
* `u32` fields are embedded as `Nat`.
-/

namespace NextUp

/-- `Priority` enum from `src/tasks.rs`. -/
inductive Priority where
  | P0
  | P1
  | P2
  | P3
deriving DecidableEq, Repr

/-- `Task` struct, with the field set used by `src/db.rs` (the superset of the
fields of `src/tasks.rs`); dates are Unix-epoch seconds. -/
structure Task where
  id : Nat
  parent_id : Nat
  is_archived : Bool
  summary : String
  description : Option String
  average_duration : Option Int
  bounty_modifier : ℚ
  due_date : Option Int
  from_date : Int
  lead_days : Option Nat
  priority : Priority
  repeat_interval : Option Nat
  times_selected : Nat
  times_shown : Nat
deriving DecidableEq, Repr

/-- `adjust_for_priority` from `src/weighting.rs` (lines 76-83). -/
def adjust_for_priority (task : Task) : ℚ :=
  match task.priority with
  | Priority.P0 => 2
  | Priority.P1 => 3
  | Priority.P2 => 5
  | Priority.P3 => 8

/-- `weight_due_task` from `src/weighting.rs` (lines 15-40).  The Rust code
unwraps `due_date` and `lead_days`; a missing `lead_days` (or `due_date`)
panics, embedded as `none`.  The branch condition is the source's `i64`
comparison `now <= due - lead*86400`; the weight itself is the source's float
expression over `ℚ`. -/
def weight_due_task (task : Task) (now : Int) : Option ℚ :=
  match task.due_date, task.lead_days with
  | some due, some lead =>
      let w : ℚ :=
        if now ≤ due - (lead : Int) * 86400 then
          (now : ℚ) / ((due : ℚ) - (lead : ℚ) * 86400)
        else
          100 * ((now : ℚ) - (due : ℚ) + (lead : ℚ) * 86400) / ((lead : ℚ) * 86400) + 1
      some (w * adjust_for_priority task)
  | _, _ => none

/-- `weight_repeat_task` from `src/weighting.rs` (lines 42-60).  Returns `0.0`
when `from_date + repeat_interval days >= now` (cooldown); otherwise
`m(priority) * (0.667 * (now / eligible) + 0.333)`.  The Rust code unwraps
`repeat_interval`, so a missing interval is `none`. -/
def weight_repeat_task (task : Task) (now : Int) : Option ℚ :=
  match task.repeat_interval with
  | some interval =>
      let eligible : Int := task.from_date + (interval : Int) * 86400
      if now ≤ eligible then
        some 0
      else
        some (adjust_for_priority task *
          (667/1000 * ((now : ℚ) / (eligible : ℚ)) + 333/1000))
  | none => none

/-- `weight_oneoff_task` from `src/weighting.rs` (lines 62-74):
`m(priority) * (0.667 * (now / (from_date + 20 days)) + 1.0)`. -/
def weight_oneoff_task (task : Task) (now : Int) : Option ℚ :=
  some (adjust_for_priority task *
    (667/1000 * ((now : ℚ) / ((task.from_date + 20 * 86400 : Int) : ℚ)) + 1))

/-- `calculate_weight` from `src/weighting.rs` (lines 4-13): dispatch on
`due_date`, then `repeat_interval`. -/
def calculate_weight (task : Task) (now : Int) : Option ℚ :=
  match task.due_date with
  | some _ => weight_due_task task now
  | none =>
      match task.repeat_interval with
      | some _ => weight_repeat_task task now
      | none => weight_oneoff_task task now

/-- The weight as a plain rational (`0` for the panic case); convenience for
stating ordering facts. -/
def weightVal (task : Task) (now : Int) : ℚ :=
  (calculate_weight task now).getD 0

/-- The priority-independent factor of the weight: `calculate_weight` is this
factor times `adjust_for_priority` (lemma `calculate_weight_eq_base`). -/
def baseFactor (task : Task) (now : Int) : Option ℚ :=
  match task.due_date, task.lead_days, task.repeat_interval with
  | some due, some lead, _ =>
      some (if now ≤ due - (lead : Int) * 86400 then
              (now : ℚ) / ((due : ℚ) - (lead : ℚ) * 86400)
            else
              100 * ((now : ℚ) - (due : ℚ) + (lead : ℚ) * 86400) / ((lead : ℚ) * 86400) + 1)
  | some _, none, _ => none
  | none, _, some interval =>
      let eligible : Int := task.from_date + (interval : Int) * 86400
      if now ≤ eligible then some 0
      else some (667/1000 * ((now : ℚ) / (eligible : ℚ)) + 333/1000)
  | none, _, none =>
      some (667/1000 * ((now : ℚ) / ((task.from_date + 20 * 86400 : Int) : ℚ)) + 1)

theorem calculate_weight_eq_base (task : Task) (now : Int) :
    calculate_weight task now =
      (baseFactor task now).map (fun b => b * adjust_for_priority task) := by
  unfold calculate_weight baseFactor weight_due_task weight_repeat_task weight_oneoff_task
  rcases hdue : task.due_date with _ | due
  · rcases hrep : task.repeat_interval with _ | interval
    · simp [mul_comm]
    · simp only
      split
      · simp
      · simp [mul_comm]
  · rcases hlead : task.lead_days with _ | lead
    · simp
    · simp

theorem baseFactor_priority_indep (task : Task) (now : Int) (p : Priority) :
    baseFactor { task with priority := p } now = baseFactor task now := rfl

/-! ## Storage layer (`src/db.rs`) -/

/-- The row filter of `tasks_from_stmt` (`src/db.rs`, lines 794-858): a row is
kept when it has no `repeat_interval`, or its cooldown has elapsed
(`from_date + repeat_interval days < now`), or `include_inactive` is set.  The
SQL result set is embedded as the list of its task rows. -/
def tasks_from_stmt (rows : List Task) (include_inactive : Bool) (now : Int) : List Task :=
  rows.filter fun task =>
    task.repeat_interval.isNone ||
      decide (task.from_date + ((task.repeat_interval.getD 0 : Nat) : Int) * 86400 < now) ||
      include_inactive

/-- `read_all_tasks` from `src/db.rs` (lines 535-561): `SELECT ... FROM tasks`
with no `WHERE` clause (archived rows included), passed to `tasks_from_stmt`
with `include_inactive = true`.  The table is embedded as the list `store`. -/
def read_all_tasks (store : List Task) (now : Int) : List Task :=
  tasks_from_stmt store true now

theorem read_all_tasks_eq_store (store : List Task) (now : Int) :
    read_all_tasks store now = store := by
  unfold read_all_tasks tasks_from_stmt
  induction store with
  | nil => rfl
  | cons t rest ih => simp_all

/-- Ledger transaction row: `date` plus the two nullable money columns of the
`transactions` table (`src/db.rs`). -/
structure Transact where
  date : Int
  funds_added : Option ℚ
  funds_subtracted : Option ℚ
deriving DecidableEq, Repr

/-- `add_transaction` from `src/db.rs` (lines 412-436): `price >= 0.0` inserts
`funds_added = price`; otherwise `funds_subtracted = price * -1.0`.  Returns
the inserted row. -/
def add_transaction (now : Int) (price : ℚ) : Transact :=
  if 0 ≤ price then
    { date := now, funds_added := some price, funds_subtracted := none }
  else
    { date := now, funds_added := none, funds_subtracted := some (price * (-1)) }

/-- `convert_fields_from_sql` from `src/db.rs` (lines 749-773): the
`average_duration` column becomes a `Duration` (seconds), and the `priority`
column maps 0/1/2/3 to `P0`/`P1`/`P2`/`P3` with every other value falling
through to `P1`. -/
def convert_fields_from_sql (average_duration_row : Option Nat) (priority_row : Nat) :
    Option Int × Priority :=
  let average_duration := average_duration_row.map fun d => (d : Int)
  let priority :=
    if priority_row = 0 then Priority.P0
    else if priority_row = 1 then Priority.P1
    else if priority_row = 2 then Priority.P2
    else if priority_row = 3 then Priority.P3
    else Priority.P1
  (average_duration, priority)

/-! ## Bounty computation (`src/finance.rs`) -/

/-- Accumulator loop of `calc_monthly_tasks`: `30 / interval` is Rust `u32`
division, which panics when `interval == 0` (embedded as `none`); a
non-repeating task counts 1 when `from_date + 3 days > now`. -/
def calc_monthly_tasks_loop (now : Int) : Nat → List Task → Option Nat
  | acc, [] => some acc
  | acc, task :: rest =>
      match task.repeat_interval with
      | some interval =>
          if interval = 0 then none
          else calc_monthly_tasks_loop now (acc + 30 / interval) rest
      | none =>
          if now < task.from_date + 3 * 86400 then
            calc_monthly_tasks_loop now (acc + 1) rest
          else
            calc_monthly_tasks_loop now acc rest

/-- `calc_monthly_tasks` from `src/finance.rs` (lines 22-39): iterates over
`db::read_all_tasks`. -/
def calc_monthly_tasks (store : List Task) (now : Int) : Option Nat :=
  calc_monthly_tasks_loop now 0 (read_all_tasks store now)

/-- A `f64` value that can be non-finite: the result of `target / monthly` when
`monthly == 0` is `+inf` (or NaN for `0 / 0`), not an error. -/
inductive FloatVal where
  | finite (q : ℚ)
  | posInf
  | nan
deriving DecidableEq, Repr

/-- IEEE-754 division `(a as f64) / (b as f64)` for the nonnegative integer
operands used by `base_value`. -/
def divAsF64 (a b : Nat) : FloatVal :=
  if b = 0 then
    if a = 0 then FloatVal.nan else FloatVal.posInf
  else
    FloatVal.finite ((a : ℚ) / (b : ℚ))

/-- Rust `f64::round`: nearest integer, ties away from zero. -/
def rustRound (q : ℚ) : Int :=
  if 0 ≤ q then ⌊q + 1/2⌋ else ⌈q - 1/2⌉

/-- `(result * 100.0).round() / 100.0` lifted to `FloatVal` (rounding and
dividing a non-finite value leaves it non-finite). -/
def roundTo2 : FloatVal → FloatVal
  | FloatVal.finite q => FloatVal.finite ((rustRound (q * 100) : ℚ) / 100)
  | FloatVal.posInf => FloatVal.posInf
  | FloatVal.nan => FloatVal.nan

/-- `base_value` from `src/finance.rs` (lines 50-63), with the two inputs the
Rust function reads itself — `calc_monthly_tasks(conn)` and the target
allowance setting — passed explicitly: divide, then round to 2 decimals. -/
def base_value (target_allowance monthly_tasks : Nat) : FloatVal :=
  roundTo2 (divAsF64 target_allowance monthly_tasks)

/-- Accumulator loop of `calc_funds` (`src/finance.rs`, lines 79-92): add
`funds_added` when present, otherwise subtract `funds_subtracted.unwrap()`
(a row with neither column panics, embedded as `none`). -/
def calc_funds_loop : ℚ → List Transact → Option ℚ
  | acc, [] => some acc
  | acc, t :: rest =>
      match t.funds_added with
      | some v => calc_funds_loop (acc + v) rest
      | none =>
          match t.funds_subtracted with
          | some w => calc_funds_loop (acc - w) rest
          | none => none

/-- `calc_funds` from `src/finance.rs` (lines 79-92) over the transaction list
returned by `db::read_transactions`. -/
def calc_funds (transactions : List Transact) : Option ℚ :=
  calc_funds_loop 0 transactions

/-! ## Auxiliary predicates and test-input builders -/

/-- Convenience constructor for concrete tasks (mirrors the defaults of the
commented-out `build_task` of `src/tasks.rs`); only the fields the weight and
bounty formulas read are parameters. -/
def mkTask (due_date : Option Int) (from_date : Int) (lead_days : Option Nat)
    (priority : Priority) (repeat_interval : Option Nat) (is_archived : Bool) : Task :=
  { id := 0, parent_id := 0, is_archived := is_archived, summary := "task",
    description := none, average_duration := none, bounty_modifier := 1,
    due_date := due_date, from_date := from_date, lead_days := lead_days,
    priority := priority, repeat_interval := repeat_interval,
    times_selected := 0, times_shown := 0 }

/-- The task is in the *due* temporal mode (has a due date). -/
def isDueMode (t : Task) : Prop := t.due_date.isSome = true

/-- The task is in the *repeating* temporal mode (no due date, has a repeat
interval). -/
def isRepeatMode (t : Task) : Prop := t.due_date = none ∧ t.repeat_interval.isSome = true

/-- The task is in the *one-off* temporal mode (neither due date nor repeat
interval). -/
def isOneOffMode (t : Task) : Prop := t.due_date = none ∧ t.repeat_interval = none

/-- The spec's mode invariant: exactly one of the three temporal modes holds. -/
def modeInvariant (t : Task) : Prop :=
  (isDueMode t ∧ ¬ isRepeatMode t ∧ ¬ isOneOffMode t) ∨
  (¬ isDueMode t ∧ isRepeatMode t ∧ ¬ isOneOffMode t) ∨
  (¬ isDueMode t ∧ ¬ isRepeatMode t ∧ isOneOffMode t)

instance (t : Task) : Decidable (modeInvariant t) := by
  unfold modeInvariant isDueMode isRepeatMode isOneOffMode
  infer_instance

/-! ## Claim C1: repeating-task weight -/

/-- C1 counterexample: at `now_s = eligible_s` the code returns weight `0`
(the cooldown test is `from_date + interval >= now`), whereas the claim says
the formula branch applies at equality and yields
`m(priority) * (0.667 * 1 + 0.333) = 3 ≠ 0` for priority P1. -/
theorem C1_boundary_counterexample :
    calculate_weight (mkTask none 1700000000 none Priority.P1 (some 7) false) 1700604800 =
      some 0 ∧
    adjust_for_priority (mkTask none 1700000000 none Priority.P1 (some 7) false) *
      (667/1000 * ((1700604800 : ℚ) / ((1700000000 + (7 : Int) * 86400 : Int) : ℚ)) + 333/1000) ≠ 0 := by
  constructor
  · decide
  · norm_num [adjust_for_priority, mkTask]

/-- C1 (amended): for a repeating task the weight is `0` whenever
`now_s ≤ eligible_s` (the zero branch includes the boundary), and equals
`m(priority) * (0.667 * (now_s / eligible_s) + 0.333)` whenever
`now_s > eligible_s`. -/
theorem C1_repeat_weight (task : Task) (now : Int) (interval : Nat)
    (hdue : task.due_date = none) (hrep : task.repeat_interval = some interval) :
    (now ≤ task.from_date + (interval : Int) * 86400 →
      calculate_weight task now = some 0) ∧
    (task.from_date + (interval : Int) * 86400 < now →
      calculate_weight task now =
        some (adjust_for_priority task *
          (667/1000 *
            ((now : ℚ) / ((task.from_date + (interval : Int) * 86400 : Int) : ℚ)) +
            333/1000))) := by
  unfold calculate_weight weight_repeat_task
  rw [hdue, hrep]
  constructor
  · intro h
    simp only [if_pos h]
  · intro h
    simp only [if_neg (by omega : ¬ now ≤ task.from_date + (interval : Int) * 86400)]

/-- C1 witness: the amended theorem applied at a concrete cooling-down
repeating task. -/
theorem C1_repeat_weight_witness :
    calculate_weight (mkTask none 1700000000 none Priority.P1 (some 7) false) 1700604800 =
      some 0 :=
  (C1_repeat_weight (mkTask none 1700000000 none Priority.P1 (some 7) false)
    1700604800 7 rfl rfl).1 (by decide)

/-! ## Claim C2: totality of the weight function -/

/-- C2 counterexample: a task in the *due* mode (so the mode invariant holds)
whose `lead_days` is absent makes `weight_due_task` unwrap `None` — the code
panics instead of returning a typed success/failure value; embedded as
`calculate_weight = none`. -/
theorem C2_panic_counterexample :
    modeInvariant (mkTask (some 1701000000) 1700000000 none Priority.P1 none false) ∧
    calculate_weight (mkTask (some 1701000000) 1700000000 none Priority.P1 none false)
      1700000000 = none := by
  constructor
  · decide
  · decide

/-- C2 (amended): the weight computation succeeds (no panic) for every task
satisfying the mode invariant *and* carrying `lead_days` whenever it has a due
date; a due task without `lead_days` hits `Option::unwrap` on `None`. -/
theorem C2_weight_total (task : Task) (now : Int)
    (hmode : modeInvariant task)
    (hlead : task.due_date.isSome = true → task.lead_days.isSome = true) :
    (calculate_weight task now).isSome = true := by
  unfold calculate_weight weight_due_task weight_repeat_task weight_oneoff_task
  rcases hdue : task.due_date with _ | due
  · rcases hrep : task.repeat_interval with _ | interval
    · simp
    · simp only
      split <;> simp
  · rcases hld : task.lead_days with _ | lead
    · exact absurd (hlead (by simp [hdue])) (by simp [hld])
    · simp

/-- C2 witness: the amended totality theorem applied to a concrete due task
with `lead_days` present. -/
theorem C2_weight_total_witness :
    (calculate_weight (mkTask (some 1701000000) 1700000000 (some 3) Priority.P2 none false)
      1700000000).isSome = true :=
  C2_weight_total (mkTask (some 1701000000) 1700000000 (some 3) Priority.P2 none false)
    1700000000 (by decide) (by decide)

/-! ## Claim C3: base_value at a zero monthly estimate -/

/-- C3 counterexample: `base_value(target=400, monthly_estimate=0)` performs
the `f64` division and yields `+inf`; no `ArithmeticError` (the embedding has
no error outcome at all — the Rust function returns a bare `f64`). -/
theorem C3_zero_estimate_counterexample : base_value 400 0 = FloatVal.posInf := by
  decide

/-- C3 (amended): for every positive target allowance, a zero monthly task
estimate makes `base_value` return `+inf` (the division is performed; no typed
error is raised). -/
theorem C3_base_value_zero (target : Nat) (h : target ≠ 0) :
    base_value target 0 = FloatVal.posInf := by
  unfold base_value divAsF64 roundTo2
  simp [h]

/-- C3 witness: the amended theorem at `target = 400`. -/
theorem C3_base_value_zero_witness : base_value 400 0 = FloatVal.posInf :=
  C3_base_value_zero 400 (by decide)

/-! ## Claim C4: the monthly task estimate -/

/-- Per-task contribution to the monthly estimate: `30 / interval` (integer
division) for a repeating task, `1` for a non-repeating task whose anchor date
satisfies `from_date + 3 days > now`, else `0`. -/
def monthlyTaskShare (now : Int) (t : Task) : Nat :=
  match t.repeat_interval with
  | some interval => 30 / interval
  | none => if now < t.from_date + 3 * 86400 then 1 else 0

/-- The monthly estimate as the *spec's words* state it for claim C4: summed
over non-archived tasks only, archived tasks contributing nothing.  (Stated
for comparison with `calc_monthly_tasks`, which is translated from the code.) -/
def monthlyTasksClaimed (store : List Task) (now : Int) : Nat :=
  ((store.filter fun t => !t.is_archived).map (monthlyTaskShare now)).sum

theorem calc_monthly_tasks_loop_eq (now : Int) (l : List Task) :
    ∀ acc : Nat, (∀ t ∈ l, t.repeat_interval ≠ some 0) →
      calc_monthly_tasks_loop now acc l =
        some (acc + (l.map (monthlyTaskShare now)).sum) := by
  induction l with
  | nil => intro acc _; simp [calc_monthly_tasks_loop]
  | cons t rest ih =>
      intro acc h
      have hrest : ∀ u ∈ rest, u.repeat_interval ≠ some 0 := by
        intro u hu; exact h u (List.mem_cons_of_mem t hu)
      have hsum : (List.map (monthlyTaskShare now) (t :: rest)).sum =
          monthlyTaskShare now t + (List.map (monthlyTaskShare now) rest).sum := by
        simp
      rcases hrep : t.repeat_interval with _ | interval
      · by_cases hc : now < t.from_date + 3 * 86400
        · have hc' : now < t.from_date + 259200 := by omega
          have hstep : calc_monthly_tasks_loop now acc (t :: rest) =
              calc_monthly_tasks_loop now (acc + 1) rest := by
            simp [calc_monthly_tasks_loop, hrep, hc']
          have hshare : monthlyTaskShare now t = 1 := by
            simp [monthlyTaskShare, hrep, hc']
          rw [hstep, ih _ hrest, hsum, hshare]
          congr 1
          omega
        · have hc' : ¬ now < t.from_date + 259200 := by omega
          have hstep : calc_monthly_tasks_loop now acc (t :: rest) =
              calc_monthly_tasks_loop now acc rest := by
            simp [calc_monthly_tasks_loop, hrep, hc']
          have hshare : monthlyTaskShare now t = 0 := by
            simp [monthlyTaskShare, hrep, hc']
          rw [hstep, ih _ hrest, hsum, hshare]
          congr 1
          omega
      · have hne : interval ≠ 0 := by
          intro h0
          exact h t (List.mem_cons_self t rest) (by rw [hrep, h0])
        have hstep : calc_monthly_tasks_loop now acc (t :: rest) =
            calc_monthly_tasks_loop now (acc + 30 / interval) rest := by
          simp [calc_monthly_tasks_loop, hrep, hne]
        have hshare : monthlyTaskShare now t = 30 / interval := by
          simp [monthlyTaskShare, hrep]
        rw [hstep, ih _ hrest, hsum, hshare]
        congr 1
        omega

/-- C4 counterexample: `read_all_tasks` applies no archived filter
(`SELECT ... FROM tasks` with `include_inactive = true`), so an archived
repeating task with interval 10 contributes `floor(30/10) = 3` to the code's
estimate, while the claim's archived-excluded sum is `0`. -/
theorem C4_archived_counterexample :
    calc_monthly_tasks [mkTask none 1700000000 none Priority.P1 (some 10) true]
      1700000000 = some 3 ∧
    monthlyTasksClaimed [mkTask none 1700000000 none Priority.P1 (some 10) true]
      1700000000 = 0 := by
  constructor
  · decide
  · decide

/-- C4 (amended): provided no repeat interval is `0` (a zero interval panics on
`u32` division), the monthly estimate equals the sum over **all** tasks in the
store — archived tasks included — of `floor(30/interval)` for repeating tasks
and `1` for non-repeating tasks with `from_date + 3 days > now`, else `0`. -/
theorem C4_monthly_tasks (store : List Task) (now : Int)
    (h : ∀ t ∈ store, t.repeat_interval ≠ some 0) :
    calc_monthly_tasks store now = some ((store.map (monthlyTaskShare now)).sum) := by
  unfold calc_monthly_tasks
  rw [read_all_tasks_eq_store]
  simpa using calc_monthly_tasks_loop_eq now store 0 h

/-- C4 witness: the amended theorem on a three-task store (weekly repeating
task → 4, freshly anchored one-off → 1, month-old one-off → 0). -/
theorem C4_monthly_tasks_witness :
    calc_monthly_tasks
      [mkTask none 1690000000 none Priority.P1 (some 7) false,
       mkTask none 1699990000 none Priority.P2 none false,
       mkTask none 1697000000 none Priority.P0 none true]
      1700000000 = some 5 := by
  rw [C4_monthly_tasks _ 1700000000 (by decide)]
  decide

/-! ## Claim C5: weight strictly increases with priority rank -/

/-- C5 counterexample: for a repeating task still in cooldown the weight is
`0` at every priority, so the weight does *not* strictly increase from P0 to
P1 for that task. -/
theorem C5_cooldown_counterexample :
    calculate_weight (mkTask none 1700000000 none Priority.P0 (some 7) false)
      1700000000 = some 0 ∧
    calculate_weight (mkTask none 1700000000 none Priority.P1 (some 7) false)
      1700000000 = some 0 ∧
    ¬ (weightVal (mkTask none 1700000000 none Priority.P0 (some 7) false) 1700000000 <
       weightVal (mkTask none 1700000000 none Priority.P1 (some 7) false) 1700000000) := by
  refine ⟨by decide, by decide, by decide⟩

/-- C5 (amended): whenever the priority-independent factor of the weight is
positive (in particular the task is not a cooling-down repeating task), the
weight strictly increases with priority rank P0 < P1 < P2 < P3, the
multipliers being 2, 3, 5, 8. -/
theorem C5_priority_mono (task : Task) (now : Int) (b : ℚ)
    (hb : baseFactor task now = some b) (hpos : 0 < b) :
    weightVal { task with priority := Priority.P0 } now <
      weightVal { task with priority := Priority.P1 } now ∧
    weightVal { task with priority := Priority.P1 } now <
      weightVal { task with priority := Priority.P2 } now ∧
    weightVal { task with priority := Priority.P2 } now <
      weightVal { task with priority := Priority.P3 } now := by
  have hw : ∀ p : Priority, weightVal { task with priority := p } now =
      b * adjust_for_priority { task with priority := p } := by
    intro p
    unfold weightVal
    rw [calculate_weight_eq_base, baseFactor_priority_indep, hb]
    rfl
  rw [hw Priority.P0, hw Priority.P1, hw Priority.P2, hw Priority.P3]
  refine ⟨?_, ?_, ?_⟩
  · show b * 2 < b * 3
    nlinarith
  · show b * 3 < b * 5
    nlinarith
  · show b * 5 < b * 8
    nlinarith

/-- C5 witness: the amended theorem on a repeating task one interval past its
eligibility time (priority-independent factor `0.667 * 2 + 0.333`). -/
theorem C5_priority_mono_witness :
    weightVal (mkTask none 0 none Priority.P0 (some 1) false) 172800 <
      weightVal (mkTask none 0 none Priority.P1 (some 1) false) 172800 :=
  (C5_priority_mono (mkTask none 0 none Priority.P1 (some 1) false) 172800
    (1667/1000) (by norm_num [baseFactor, mkTask]) (by norm_num)).1

/-! ## Claim C6: due-task boundary continuity -/

/-- C6: at the boundary `now_s = due_s - lead_s` the due-task weight takes the
first branch and evaluates to `m(priority)` exactly, and both branch formulas
— `now_s / (due_s - lead_s) * m` and `(1 + 100 * (now_s - due_s + lead_s) /
lead_s) * m` — equal `m(priority)` there. -/
theorem C6_due_boundary (t : Task) (due : Int) (lead : Nat) (now : Int)
    (hdue : t.due_date = some due) (hlead : t.lead_days = some lead)
    (hl : 0 < lead) (hnz : due - (lead : Int) * 86400 ≠ 0)
    (hnow : now = due - (lead : Int) * 86400) :
    weight_due_task t now = some (adjust_for_priority t) ∧
    (now : ℚ) / ((due : ℚ) - (lead : ℚ) * 86400) * adjust_for_priority t =
      adjust_for_priority t ∧
    (1 + 100 * ((now : ℚ) - (due : ℚ) + (lead : ℚ) * 86400) / ((lead : ℚ) * 86400)) *
      adjust_for_priority t = adjust_for_priority t := by
  subst hnow
  have hq : ((due : ℚ) - (lead : ℚ) * 86400) ≠ 0 := by
    intro h0
    apply hnz
    have hc : ((due - (lead : Int) * 86400 : Int) : ℚ) = 0 := by push_cast; linarith
    exact_mod_cast hc
  have hcast : (((due - (lead : Int) * 86400 : Int)) : ℚ) =
      (due : ℚ) - (lead : ℚ) * 86400 := by push_cast; ring
  have hratio : (((due - (lead : Int) * 86400 : Int)) : ℚ) /
      ((due : ℚ) - (lead : ℚ) * 86400) = 1 := by
    rw [hcast]
    exact div_self hq
  have hnum : (((due - (lead : Int) * 86400 : Int)) : ℚ) - (due : ℚ) +
      (lead : ℚ) * 86400 = 0 := by push_cast; ring
  refine ⟨?_, ?_, ?_⟩
  · unfold weight_due_task
    rw [hdue, hlead]
    simp only [if_pos (le_refl (due - (lead : Int) * 86400)), hratio, one_mul]
  · rw [hratio, one_mul]
  · rw [hnum]
    simp

/-- C6 witness: the boundary theorem at `due_date = now + 10 days`,
`lead_days = 3`, priority P1 — the weight at `now_s = due_s - lead_s` is
exactly `m(P1) = 3`. -/
theorem C6_due_boundary_witness :
    weight_due_task (mkTask (some 1700864000) 1700000000 (some 3) Priority.P1 none false)
      1700604800 = some 3 :=
  (C6_due_boundary (mkTask (some 1700864000) 1700000000 (some 3) Priority.P1 none false)
    1700864000 3 1700604800 rfl rfl (by norm_num) (by norm_num) (by norm_num)).1

/-! ## Claims C7 and C9: the ledger -/

/-- Exactly one of `funds_added` / `funds_subtracted` is populated. -/
def exactlyOneField (t : Transact) : Prop :=
  (t.funds_added.isSome = true ∧ t.funds_subtracted = none) ∨
  (t.funds_added = none ∧ t.funds_subtracted.isSome = true)

instance (t : Transact) : Decidable (exactlyOneField t) := by
  unfold exactlyOneField
  infer_instance

theorem calc_funds_loop_eq (l : List Transact) :
    ∀ acc : ℚ, (∀ t ∈ l, exactlyOneField t) →
      calc_funds_loop acc l =
        some (acc + ((l.map fun t => (t.funds_added.getD 0 : ℚ)).sum -
                     (l.map fun t => (t.funds_subtracted.getD 0 : ℚ)).sum)) := by
  induction l with
  | nil => intro acc _; simp [calc_funds_loop]
  | cons t rest ih =>
      intro acc h
      have hrest : ∀ u ∈ rest, exactlyOneField u := by
        intro u hu; exact h u (List.mem_cons_of_mem t hu)
      rcases h t (List.mem_cons_self t rest) with ⟨ha, hs⟩ | ⟨ha, hs⟩
      · obtain ⟨v, hv⟩ := Option.isSome_iff_exists.mp ha
        have hstep : calc_funds_loop acc (t :: rest) = calc_funds_loop (acc + v) rest := by
          simp [calc_funds_loop, hv]
        rw [hstep, ih _ hrest]
        simp only [List.map_cons, List.sum_cons, hv, hs, Option.getD_some, Option.getD_none]
        congr 1
        ring
      · obtain ⟨w, hw⟩ := Option.isSome_iff_exists.mp hs
        have hstep : calc_funds_loop acc (t :: rest) = calc_funds_loop (acc - w) rest := by
          simp [calc_funds_loop, ha, hw]
        rw [hstep, ih _ hrest]
        simp only [List.map_cons, List.sum_cons, ha, hw, Option.getD_some, Option.getD_none]
        congr 1
        ring

/-- C7: for every transaction list in which each row has exactly one of
`funds_added` / `funds_subtracted` populated (the shape `add_transaction`
writes), the balance computed by `calc_funds` is the sum of all `funds_added`
minus the sum of all `funds_subtracted`. -/
theorem C7_balance (ts : List Transact) (h : ∀ t ∈ ts, exactlyOneField t) :
    calc_funds ts =
      some ((ts.map fun t => (t.funds_added.getD 0 : ℚ)).sum -
            (ts.map fun t => (t.funds_subtracted.getD 0 : ℚ)).sum) := by
  unfold calc_funds
  simpa using calc_funds_loop_eq ts 0 h

/-- C7 witness: the ledger round trip `append(100.50)`, `append(-45.75)`
yields a balance of exactly `54.75` (`= 219/4`). -/
theorem C7_balance_witness :
    calc_funds [add_transaction 1700000000 (201/2), add_transaction 1700000100 (-(183/4))] =
      some (219/4) := by
  have hwf : ∀ t ∈ [add_transaction 1700000000 (201/2),
      add_transaction 1700000100 (-(183/4))], exactlyOneField t := by
    intro t ht
    simp only [List.mem_cons, List.not_mem_nil, or_false] at ht
    rcases ht with h | h <;> subst h <;> unfold exactlyOneField <;>
      norm_num [add_transaction]
  rw [C7_balance _ hwf]
  norm_num [add_transaction]

/-- C9: every transaction created by `add_transaction` has exactly one of the
two money fields populated: `funds_added = amount` for `amount ≥ 0`, else
`funds_subtracted = -amount`. -/
theorem C9_append_invariant (now : Int) (amount : ℚ) :
    (0 ≤ amount →
      (add_transaction now amount).funds_added = some amount ∧
      (add_transaction now amount).funds_subtracted = none) ∧
    (amount < 0 →
      (add_transaction now amount).funds_added = none ∧
      (add_transaction now amount).funds_subtracted = some (-amount)) ∧
    exactlyOneField (add_transaction now amount) := by
  by_cases h : 0 ≤ amount
  · exact ⟨fun _ => ⟨by simp [add_transaction, h], by simp [add_transaction, h]⟩,
      fun hneg => absurd h (not_le.mpr hneg),
      Or.inl ⟨by simp [add_transaction, h], by simp [add_transaction, h]⟩⟩
  · exact ⟨fun hpos => absurd hpos h,
      fun _ => ⟨by simp [add_transaction, h], by simp [add_transaction, h, mul_neg_one]⟩,
      Or.inr ⟨by simp [add_transaction, h], by simp [add_transaction, h]⟩⟩

/-- C9 witness: the invariant at `append(100.50)` and `append(-45.75)`. -/
theorem C9_append_invariant_witness :
    (add_transaction 1700000000 (201/2)).funds_added = some (201/2) ∧
    (add_transaction 1700000000 (-(183/4))).funds_subtracted = some (183/4) :=
  ⟨((C9_append_invariant 1700000000 (201/2)).1 (by norm_num)).1,
   by
    have h := ((C9_append_invariant 1700000000 (-(183/4))).2.1 (by norm_num)).2
    simpa using h⟩

/-! ## Claim C8: base_value -/

/-- C8: for a nonzero monthly estimate, `base_value` is the target allowance
divided by the estimate, rounded to 2 decimal places. -/
theorem C8_base_value (target monthly : Nat) (h : monthly ≠ 0) :
    base_value target monthly =
      FloatVal.finite ((rustRound ((target : ℚ) / (monthly : ℚ) * 100) : ℚ) / 100) := by
  unfold base_value divAsF64 roundTo2
  simp [h]

/-- C8 witness: `base_value(target=400, monthly_estimate=8) = 50.00`. -/
theorem C8_base_value_witness : base_value 400 8 = FloatVal.finite 50 := by
  have h := C8_base_value 400 8 (by norm_num)
  rw [h]
  norm_num [rustRound]

/-! ## Claim C10: priority decoding from the stored integer -/

/-- C10: decoding the stored priority integer is total — 0, 1, 2, 3 map to
P0, P1, P2, P3, and every other value is silently mapped to the default P1. -/
theorem C10_priority_decode (a : Option Nat) (n : Nat) :
    (n = 0 → (convert_fields_from_sql a n).2 = Priority.P0) ∧
    (n = 1 → (convert_fields_from_sql a n).2 = Priority.P1) ∧
    (n = 2 → (convert_fields_from_sql a n).2 = Priority.P2) ∧
    (n = 3 → (convert_fields_from_sql a n).2 = Priority.P3) ∧
    (3 < n → (convert_fields_from_sql a n).2 = Priority.P1) := by
  refine ⟨fun h => ?_, fun h => ?_, fun h => ?_, fun h => ?_, fun h => ?_⟩
  · subst h; rfl
  · subst h; rfl
  · subst h; rfl
  · subst h; rfl
  · have h0 : n ≠ 0 := by omega
    have h1 : n ≠ 1 := by omega
    have h2 : n ≠ 2 := by omega
    have h3 : n ≠ 3 := by omega
    simp [convert_fields_from_sql, h0, h1, h2, h3]

/-- C10 witness: the out-of-range value 7 decodes to the default P1. -/
theorem C10_priority_decode_witness : (convert_fields_from_sql none 7).2 = Priority.P1 :=
  (C10_priority_decode none 7).2.2.2.2 (by norm_num)

end NextUp
